import Mathlib

/-!
Verification of the sales-analytics dashboard (`streamlit_app.py`).

Shallow embedding conventions:
* A dataframe row is a `Record`; a dataframe is a `List Record`.
* Calendar days are encoded as integers `yyyymmdd`; the synthetic window
  2024-01-01 .. 2024-01-31 is the 31 consecutive integers
  `20240101 + i` for `i < 31` (January has 31 days, so these are exactly
  the valid encodings of that window, and integer order agrees with
  calendar order).
* Monetary amounts are rationals; `pandas.round(2)` is modelled as exact
  round-half-even to two decimal places.
* The numpy random draws of `create_sample_data` are an oracle
  (`SampleRng`): one draw function per call site, indexed by the loop
  iteration.  `SampleRng.Valid` records the ranges numpy guarantees.
* `pd.read_csv` is modelled by its outcome `ReadResult`: a parsed row
  list, a `FileNotFoundError`, or any other exception.  `load_data`
  returns `none` when the exception propagates uncaught.
-/

/-- A row of the dashboard's dataframe after the derived `margin` column
has been added (columns of `data.csv` plus `margin`). -/
structure Record where
  date : Int
  category : String
  product : String
  sales : ℚ
  profit : ℚ
  customers : Int
  region : String
  margin : ℚ
  deriving DecidableEq, Repr

/-- A row as read from `data.csv` (or built inside `create_sample_data`),
before the `margin` column is added. -/
structure RawRecord where
  date : Int
  category : String
  product : String
  sales : ℚ
  profit : ℚ
  customers : Int
  region : String
  deriving DecidableEq, Repr

/-- Round-half-even to the nearest integer (the rounding used by
numpy/pandas `.round`). -/
def roundHalfEven (q : ℚ) : ℤ :=
  if q - ⌊q⌋ < 1/2 then ⌊q⌋
  else if q - ⌊q⌋ > 1/2 then ⌊q⌋ + 1
  else if 2 ∣ ⌊q⌋ then ⌊q⌋ else ⌊q⌋ + 1

/-- `x.round(2)`: round-half-even to two decimal places. -/
def round2 (q : ℚ) : ℚ := (roundHalfEven (q * 100) : ℚ) / 100

/-- `df['margin'] = (df['profit'] / df['sales'] * 100).round(2)`
applied to one row (lines 27 and 64 of the source). -/
def addMargin (r : RawRecord) : Record :=
  { date := r.date, category := r.category, product := r.product
    sales := r.sales, profit := r.profit, customers := r.customers
    region := r.region
    margin := round2 (r.profit / r.sales * 100) }

/-- The fixed category list of `create_sample_data`. -/
def categories : List String := ["Elettronica", "Abbigliamento", "Casa"]

/-- The fixed per-category product lists of `create_sample_data`. -/
def products (c : String) : List String :=
  if c = "Elettronica" then ["Smartphone", "Tablet", "Laptop", "TV", "Smartwatch"]
  else if c = "Abbigliamento" then ["Giacca", "Pantaloni", "Scarpe", "Maglietta"]
  else if c = "Casa" then ["Forno", "Frigorifero", "Lavatrice", "Microonde"]
  else []

/-- The fixed region list of `create_sample_data`. -/
def regions : List String := ["Nord", "Centro", "Sud"]

/-- `pd.date_range('2024-01-01', '2024-01-31')`: the 31 days of the
synthetic window, encoded `yyyymmdd`. -/
def sampleDates : List Int := (List.range 31).map (fun i => 20240101 + (i : Int))

/-- The iteration space of the three nested loops of
`create_sample_data`: every (date, category, product) triple, in loop
order. -/
def sampleTriples : List (Int × String × String) :=
  sampleDates.flatMap (fun d =>
    categories.flatMap (fun c =>
      (products c).map (fun p => (d, c, p))))

/-- The random draws of one run of `create_sample_data`, indexed by loop
iteration: `np.random.randint(1000, 20000)`,
`np.random.uniform(0.25, 0.35)`, `np.random.randint(40, 60)` and the
index drawn by `np.random.choice(regions)`. -/
structure SampleRng where
  salesDraw : Nat → Int
  profitFactor : Nat → ℚ
  custDivisor : Nat → Int
  regionChoice : Nat → Nat

/-- The ranges numpy guarantees for the draws: `randint(a, b)` lies in
`[a, b)`, `uniform(a, b)` lies in `[a, b)`, `choice` picks a valid
index. -/
def SampleRng.Valid (rng : SampleRng) : Prop :=
  (∀ i, 1000 ≤ rng.salesDraw i ∧ rng.salesDraw i < 20000) ∧
  (∀ i, 1/4 ≤ rng.profitFactor i ∧ rng.profitFactor i < 7/20) ∧
  (∀ i, 40 ≤ rng.custDivisor i ∧ rng.custDivisor i < 60) ∧
  (∀ i, rng.regionChoice i < 3)

/-- The loop body of `create_sample_data` (lines 44-61): one raw row per
(date, category, product) triple, consuming the draws of iteration `i`.
`int(sales / divisor)` truncates the positive quotient, i.e. integer
division. -/
def sampleRows (rng : SampleRng) : Nat → List (Int × String × String) → List RawRecord
  | _, [] => []
  | i, (d, c, p) :: rest =>
      let sales : Int := rng.salesDraw i
      let profit : ℚ := (sales : ℚ) * rng.profitFactor i
      let customers : Int := sales / rng.custDivisor i
      let region : String := regions.getD (rng.regionChoice i) "Nord"
      { date := d, category := c, product := p, sales := (sales : ℚ)
        profit := profit, customers := customers, region := region }
        :: sampleRows rng (i + 1) rest

/-- `create_sample_data` (lines 34-65): the generated rows with the
`margin` column added. -/
def create_sample_data (rng : SampleRng) : List Record :=
  (sampleRows rng 0 sampleTriples).map addMargin

/-- The possible outcomes of `pd.read_csv('data.csv')` plus the date
parsing of line 26. -/
inductive ReadResult where
  | ok (rows : List RawRecord)
  | fileNotFound
  | otherError
  deriving DecidableEq

/-- `load_data` (lines 22-32): on a successful read, add the margin
column; on `FileNotFoundError`, fall back to `create_sample_data`; any
other exception propagates (`none`). -/
def load_data (res : ReadResult) (rng : SampleRng) : Option (List Record) :=
  match res with
  | .ok rows => some (rows.map addMargin)
  | .fileNotFound => some (create_sample_data rng)
  | .otherError => none

/-- The boolean mask of lines 101-106 for one row: date within the
selected range, category among the selected categories, region among the
selected regions. -/
def recordMask (d0 d1 : Int) (cats regs : List String) (r : Record) : Bool :=
  decide (d0 ≤ r.date) && decide (r.date ≤ d1) &&
    cats.contains r.category && regs.contains r.region

/-- Lines 100-109: if the date widget yielded exactly two dates, filter
by the mask; otherwise take (a copy of) the full dataframe. -/
def applyFilters (df : List Record) (dateRange : List Int)
    (cats regs : List String) : List Record :=
  match dateRange with
  | [d0, d1] => df.filter (recordMask d0 d1 cats regs)
  | _ => df

/-- `filtered_df['sales'].sum()` (line 117). -/
def totalSales (df : List Record) : ℚ := (df.map Record.sales).sum

/-- `filtered_df['profit'].sum()` (line 126). -/
def totalProfit (df : List Record) : ℚ := (df.map Record.profit).sum

/-- A float computation result: either an exact finite value or a
non-finite IEEE value (infinity or NaN). -/
inductive FloatVal where
  | finite (q : ℚ)
  | nonFinite
  deriving DecidableEq, Repr

/-- Float division on exact operands: dividing by zero yields a
non-finite value (IEEE inf or NaN), never an exception. -/
def fdiv (a b : ℚ) : FloatVal :=
  if b = 0 then .nonFinite else .finite (a / b)

/-- Scaling a float result by 100 (finite stays finite, inf/NaN stay
non-finite). -/
def fscale (x : FloatVal) (k : ℚ) : FloatVal :=
  match x with
  | .finite q => .finite (q * k)
  | .nonFinite => .nonFinite

/-- The margin delta of line 130: `total_profit / total_sales * 100`,
with no zero guard. -/
def marginDelta (filtered : List Record) : FloatVal :=
  fscale (fdiv (totalProfit filtered) (totalSales filtered)) 100

/-- Header row of `filtered_df.to_csv(index=False)`: the seven columns
of `data.csv` plus the derived `margin` column, no index column. -/
def csvHeader : String :=
  "date,category,product,sales,profit,customers,region,margin"

/-- One CSV data row: the eight field values of the record, comma
separated, no index column. -/
def recordCsvRow (r : Record) : String :=
  String.intercalate ","
    [toString r.date, r.category, r.product, toString r.sales,
     toString r.profit, toString r.customers, r.region, toString r.margin]

/-- `filtered_df.to_csv(index=False)` (line 283): header line followed
by one line per record, in order. -/
def to_csv (df : List Record) : String :=
  String.intercalate "\n" (csvHeader :: df.map recordCsvRow)

/-- Lines 283-288: the CSV payload of the currently filtered view and
the download file name `dashboard_data_{YYYYMMDD}.csv`, where `today` is
`datetime.now().strftime('%Y%m%d')`. -/
def exportCsv (filtered : List Record) (today : String) : String × String :=
  (to_csv filtered, "dashboard_data_" ++ today ++ ".csv")

/-- The session state of one script run: the loaded dataframe `df` and
the derived `filtered_df`.  Pandas mutation would show up here as a
step returning a state with a different `df`. -/
structure DashboardState where
  df : List Record
  filtered : List Record
  deriving DecidableEq

/-- Lines 100-109 as a state step: recompute `filtered_df` from `df`;
`df` itself is left as it is. -/
def applyFilterStep (s : DashboardState) (dateRange : List Int)
    (cats regs : List String) : DashboardState :=
  { df := s.df, filtered := applyFilters s.df dateRange cats regs }

/-- The KPI block (lines 116-147) as a state step: reads
`filtered_df` and `df`, builds new values, writes neither. -/
def kpiStep (s : DashboardState) : DashboardState × (ℚ × ℚ) :=
  (s, (totalSales s.filtered, totalProfit s.filtered))

/-- The export block (lines 282-289) as a state step: serializes
`filtered_df` into a fresh string. -/
def exportStep (s : DashboardState) (today : String) :
    DashboardState × (String × String) :=
  (s, exportCsv s.filtered today)

/-- A concrete raw row, used to instantiate theorems. -/
def raw0 : RawRecord :=
  { date := 20240101, category := "Elettronica", product := "Smartphone"
    sales := 1000, profit := 300, customers := 20, region := "Nord" }

/-- The concrete row `raw0` with its margin column. -/
def rec0 : Record := addMargin raw0

/-- A concrete draw oracle, used to instantiate theorems. -/
def rng0 : SampleRng :=
  { salesDraw := fun _ => 1000, profitFactor := fun _ => 3/10
    custDivisor := fun _ => 50, regionChoice := fun _ => 0 }

/-- A second concrete raw row with a different category, used to
instantiate the partition theorem. -/
def raw1 : RawRecord :=
  { date := 20240102, category := "Casa", product := "Forno"
    sales := 2000, profit := 500, customers := 40, region := "Sud" }

/-- The concrete row `raw1` with its margin column. -/
def rec1 : Record := addMargin raw1

/-- C1: every record of the loaded dataset (read or synthetic) has
`margin = round2 (profit / sales * 100)`. -/
theorem margin_formula (res : ReadResult) (rng : SampleRng)
    (df : List Record) (h : load_data res rng = some df) :
    ∀ r ∈ df, r.margin = round2 (r.profit / r.sales * 100) := by
  intro r hr
  cases res with
  | ok rows =>
      simp only [load_data, Option.some_inj] at h
      subst h
      obtain ⟨raw, -, rfl⟩ := List.mem_map.mp hr
      rfl
  | fileNotFound =>
      simp only [load_data, Option.some_inj] at h
      subst h
      simp only [create_sample_data] at hr
      obtain ⟨raw, -, rfl⟩ := List.mem_map.mp hr
      rfl
  | otherError =>
      simp only [load_data] at h
      exact absurd h (by simp)

/-- C1 witness: `margin_formula` at a one-row file read. -/
theorem margin_formula_witness :
    rec0.margin = round2 (rec0.profit / rec0.sales * 100) :=
  margin_formula (.ok [raw0]) rng0 [rec0] rfl rec0 (List.mem_singleton.mpr rfl)

/-- C2: with a two-date range, every record of the filtered output
belongs to the full dataset and satisfies the selected date-range,
category and region predicate. -/
theorem filtered_subset_and_pred (df : List Record) (d0 d1 : Int)
    (cats regs : List String) :
    (∀ r ∈ applyFilters df [d0, d1] cats regs, r ∈ df) ∧
    (∀ r ∈ applyFilters df [d0, d1] cats regs,
      d0 ≤ r.date ∧ r.date ≤ d1 ∧ r.category ∈ cats ∧ r.region ∈ regs) := by
  refine ⟨fun r hr => List.mem_of_mem_filter hr, fun r hr => ?_⟩
  have hm : recordMask d0 d1 cats regs r = true := List.of_mem_filter hr
  simpa [recordMask, and_assoc] using hm

/-- C2 witness: `filtered_subset_and_pred` on a one-row dataset with a
selection the row satisfies. -/
theorem filtered_subset_and_pred_witness :
    rec0 ∈ ([rec0] : List Record) ∧
    (20240101 ≤ rec0.date ∧ rec0.date ≤ 20240131 ∧
      rec0.category ∈ ["Elettronica"] ∧ rec0.region ∈ ["Nord"]) := by
  have hmem : rec0 ∈ applyFilters [rec0] [20240101, 20240131] ["Elettronica"] ["Nord"] := by
    refine List.mem_filter.mpr ⟨List.mem_singleton.mpr rfl, ?_⟩
    decide
  exact
    ⟨(filtered_subset_and_pred [rec0] 20240101 20240131 ["Elettronica"] ["Nord"]).1
        rec0 hmem,
     (filtered_subset_and_pred [rec0] 20240101 20240131 ["Elettronica"] ["Nord"]).2
        rec0 hmem⟩

/-- C5: the only handled failure is a missing file.  `load_data` falls
back to the generated sample exactly on `FileNotFoundError`, passes a
successful read through (adding the margin column), and lets every
other exception propagate. -/
theorem load_data_error_policy (rng : SampleRng) :
    load_data .fileNotFound rng = some (create_sample_data rng) ∧
    (∀ rows, load_data (.ok rows) rng = some (rows.map addMargin)) ∧
    load_data .otherError rng = none :=
  ⟨rfl, fun _ => rfl, rfl⟩

/-- C8: when the date widget yields fewer (or more) than two dates, the
filter step returns the full dataset and the category/region selections
are ignored. -/
theorem short_date_range_ignores_filters (df : List Record)
    (dr : List Int) (cats regs : List String) (h : dr.length ≠ 2) :
    applyFilters df dr cats regs = df := by
  cases dr with
  | nil => rfl
  | cons a t =>
      cases t with
      | nil => rfl
      | cons b u =>
          cases u with
          | nil => exact absurd rfl h
          | cons c v => rfl

/-- C8 witness: a one-date range with empty category and region
selections still returns the full dataset. -/
theorem short_date_range_ignores_filters_witness :
    applyFilters [rec0] [20240105] [] [] = [rec0] :=
  short_date_range_ignores_filters [rec0] [20240105] [] [] (by decide)

/-- Splitting a sum of a projection over a list into the cells of a
partition by a string key: if every row's key lies in `s`, the per-cell
subtotals add up to the grand total. -/
lemma sum_map_filter_key (f : Record → ℚ) (k : Record → String)
    (df : List Record) (s : Finset String) (h : ∀ r ∈ df, k r ∈ s) :
    (∑ c ∈ s, ((df.filter (fun r => k r == c)).map f).sum) = (df.map f).sum := by
  induction df with
  | nil => simp
  | cons r t ih =>
      have hr : k r ∈ s := h r (List.mem_cons_self r t)
      have ht : ∀ x ∈ t, k x ∈ s := fun x hx => h x (List.mem_cons_of_mem r hx)
      have hsplit : ∀ c ∈ s,
          (((r :: t).filter (fun x => k x == c)).map f).sum
            = (if k r = c then f r else 0)
                + ((t.filter (fun x => k x == c)).map f).sum := by
        intro c _
        by_cases hc : k r = c
        · simp [List.filter_cons, hc]
        · simp [List.filter_cons, hc]
      rw [Finset.sum_congr rfl hsplit, Finset.sum_add_distrib, ih ht]
      simp [Finset.sum_ite_eq, hr]

/-- With every row inside the date bounds and every row's region
selected, filtering by a single category reduces to a plain filter on
the category column. -/
lemma applyFilters_single_category (df : List Record) (d0 d1 : Int)
    (regs : List String) (c : String)
    (hdate : ∀ r ∈ df, d0 ≤ r.date ∧ r.date ≤ d1)
    (hreg : ∀ r ∈ df, r.region ∈ regs) :
    applyFilters df [d0, d1] [c] regs
      = df.filter (fun r => r.category == c) := by
  simp only [applyFilters]
  refine List.filter_congr ?_
  intro r hr
  have h1 := hdate r hr
  have h2 := hreg r hr
  simp [recordMask, h1.1, h1.2, h2, Bool.beq_eq_decide_eq]

/-- C3: the KPI totals (total sales, total profit) of the full dataset
equal the sum of the same totals over the cells of the partition by
category, each cell computed by the program's own filter (full date
range, that single category, all regions). -/
theorem kpi_totals_partition (df : List Record) (d0 d1 : Int)
    (regs : List String)
    (hdate : ∀ r ∈ df, d0 ≤ r.date ∧ r.date ≤ d1)
    (hreg : ∀ r ∈ df, r.region ∈ regs) :
    totalSales df
        = ∑ c ∈ (df.map Record.category).toFinset,
            totalSales (applyFilters df [d0, d1] [c] regs) ∧
    totalProfit df
        = ∑ c ∈ (df.map Record.category).toFinset,
            totalProfit (applyFilters df [d0, d1] [c] regs) := by
  have hk : ∀ r ∈ df, r.category ∈ (df.map Record.category).toFinset := by
    intro r hr
    exact List.mem_toFinset.mpr (List.mem_map.mpr ⟨r, hr, rfl⟩)
  have hcell : ∀ c, applyFilters df [d0, d1] [c] regs
      = df.filter (fun r => r.category == c) :=
    fun c => applyFilters_single_category df d0 d1 regs c hdate hreg
  constructor
  · rw [Finset.sum_congr rfl (fun c _ => by rw [hcell c])]
    exact (sum_map_filter_key Record.sales Record.category df _ hk).symm
  · rw [Finset.sum_congr rfl (fun c _ => by rw [hcell c])]
    exact (sum_map_filter_key Record.profit Record.category df _ hk).symm

/-- C3 witness: `kpi_totals_partition` on a two-row dataset with two
distinct categories. -/
theorem kpi_totals_partition_witness :
    totalSales [rec0, rec1]
        = ∑ c ∈ ([rec0, rec1].map Record.category).toFinset,
            totalSales (applyFilters [rec0, rec1] [20240101, 20240131] [c]
              ["Nord", "Sud"]) ∧
    totalProfit [rec0, rec1]
        = ∑ c ∈ ([rec0, rec1].map Record.category).toFinset,
            totalProfit (applyFilters [rec0, rec1] [20240101, 20240131] [c]
              ["Nord", "Sud"]) :=
  kpi_totals_partition [rec0, rec1] 20240101 20240131 ["Nord", "Sud"]
    (by decide) (by decide)

/-- Dropping the random draws from a generated row recovers the loop
iteration's (date, category, product) triple. -/
lemma sampleRows_proj (rng : SampleRng) :
    ∀ (ts : List (Int × String × String)) (i : Nat),
      (sampleRows rng i ts).map (fun raw => (raw.date, raw.category, raw.product))
        = ts := by
  intro ts
  induction ts with
  | nil => intro i; rfl
  | cons t rest ih =>
      intro i
      obtain ⟨d, c, p⟩ := t
      simp only [sampleRows, List.map_cons, ih (i + 1)]

/-- Every generated row's sales, profit and region come from the draws
of some iteration, in the shape the loop body computes them. -/
lemma sampleRows_fields (rng : SampleRng) :
    ∀ (ts : List (Int × String × String)) (i : Nat) (raw : RawRecord),
      raw ∈ sampleRows rng i ts →
      ∃ j, raw.sales = ((rng.salesDraw j : ℤ) : ℚ) ∧
           raw.profit = ((rng.salesDraw j : ℤ) : ℚ) * rng.profitFactor j ∧
           raw.region = regions.getD (rng.regionChoice j) "Nord" := by
  intro ts
  induction ts with
  | nil => intro i raw h; simp [sampleRows] at h
  | cons t rest ih =>
      intro i raw h
      obtain ⟨d, c, p⟩ := t
      simp only [sampleRows, List.mem_cons] at h
      rcases h with h | h
      · exact ⟨i, by rw [h], by rw [h], by rw [h]⟩
      · exact ih (i + 1) raw h

/-- A (date, category, product) triple of the iteration space has its
date in the window, its category in the category list and its product
in that category's product list. -/
lemma mem_sampleTriples {d : Int} {c p : String}
    (h : (d, c, p) ∈ sampleTriples) :
    d ∈ sampleDates ∧ c ∈ categories ∧ p ∈ products c := by
  simp only [sampleTriples, List.mem_flatMap, List.mem_map] at h
  obtain ⟨d', hd, c', hc, p', hp, heq⟩ := h
  cases heq
  exact ⟨hd, hc, hp⟩

/-- The dates of the synthetic window lie between 20240101 and
20240131. -/
lemma sampleDates_bounds {d : Int} (h : d ∈ sampleDates) :
    20240101 ≤ d ∧ d ≤ 20240131 := by
  have h' : ∃ i ∈ List.range 31, 20240101 + (i : Int) = d := List.mem_map.mp h
  obtain ⟨i, hi, rfl⟩ := h'
  have h31 : i < 31 := List.mem_range.mp hi
  omega

/-- `np.random.choice(regions)` modelled by `getD` always yields an
element of `regions`, whatever the drawn index. -/
lemma getD_regions_mem (n : Nat) : regions.getD n "Nord" ∈ regions := by
  rcases n with _ | _ | _ | n
  · decide
  · decide
  · decide
  · rw [List.getD_eq_default]
    · decide
    · simp [regions]

/-- The iteration space is nonempty. -/
lemma sampleTriples_ne_nil : sampleTriples ≠ [] := by decide

/-- The generated dataset is nonempty, for every draw oracle. -/
lemma create_sample_data_ne_nil (rng : SampleRng) :
    create_sample_data rng ≠ [] := by
  intro hnil
  have hrows : sampleRows rng 0 sampleTriples = [] :=
    List.map_eq_nil_iff.mp hnil
  have := sampleRows_proj rng sampleTriples 0
  rw [hrows] at this
  exact sampleTriples_ne_nil this.symm

/-- C4: a missing `data.csv` makes `load_data` return a non-empty
synthetic dataset whose dates span exactly the fixed window 2024-01-01
(20240101) through 2024-01-31 (20240131), whose categories come from
the 3 fixed categories, whose products come from the fixed per-category
product lists, and whose regions come from the 3 fixed regions. -/
theorem sample_fallback_window (rng : SampleRng) (df : List Record)
    (h : load_data .fileNotFound rng = some df) :
    df ≠ [] ∧
    (∀ r ∈ df,
      (20240101 ≤ r.date ∧ r.date ≤ 20240131) ∧
      r.category ∈ (["Elettronica", "Abbigliamento", "Casa"] : List String) ∧
      r.product ∈ products r.category ∧
      r.region ∈ (["Nord", "Centro", "Sud"] : List String)) ∧
    (∀ i : Nat, i < 31 → ∃ r ∈ df, r.date = 20240101 + (i : Int)) := by
  have hdf : df = create_sample_data rng := by
    simpa [load_data] using h.symm
  subst hdf
  refine ⟨create_sample_data_ne_nil rng, ?_, ?_⟩
  · intro r hr
    have hr' : ∃ raw ∈ sampleRows rng 0 sampleTriples, addMargin raw = r :=
      List.mem_map.mp hr
    obtain ⟨raw, hraw, rfl⟩ := hr'
    have htrip : (raw.date, raw.category, raw.product) ∈ sampleTriples := by
      rw [← sampleRows_proj rng sampleTriples 0]
      exact List.mem_map_of_mem _ hraw
    obtain ⟨hd, hc, hp⟩ := mem_sampleTriples htrip
    have hdb := sampleDates_bounds hd
    obtain ⟨j, -, -, hregion⟩ := sampleRows_fields rng sampleTriples 0 raw hraw
    have hreg : raw.region ∈ regions := by
      rw [hregion]; exact getD_regions_mem (rng.regionChoice j)
    exact ⟨hdb, by simpa [categories] using hc, hp, by simpa [regions] using hreg⟩
  · intro i hi
    have hdmem : (20240101 + (i : Int)) ∈ sampleDates :=
      List.mem_map_of_mem (fun j : ℕ => 20240101 + (j : Int))
        (List.mem_range.mpr hi)
    have htrip : ((20240101 + (i : Int)), "Elettronica", "Smartphone")
        ∈ sampleTriples := by
      simp only [sampleTriples, List.mem_flatMap, List.mem_map]
      exact ⟨20240101 + (i : Int), hdmem,
        "Elettronica", by simp [categories],
        "Smartphone", by simp [products]⟩
    rw [← sampleRows_proj rng sampleTriples 0] at htrip
    have h'' : ∃ raw ∈ sampleRows rng 0 sampleTriples,
        (raw.date, raw.category, raw.product)
          = ((20240101 + (i : Int)), "Elettronica", "Smartphone") :=
      List.mem_map.mp htrip
    obtain ⟨raw, hraw, heq⟩ := h''
    refine ⟨addMargin raw, List.mem_map_of_mem _ hraw, ?_⟩
    exact congrArg Prod.fst heq

/-- Round-half-even of `y` is the floor of `y` or the next integer. -/
lemma roundHalfEven_bounds (y : ℚ) :
    ⌊y⌋ ≤ roundHalfEven y ∧ roundHalfEven y ≤ ⌊y⌋ + 1 := by
  unfold roundHalfEven
  split_ifs <;> omega

/-- Rounding to two decimals keeps a value of `[25, 35)` inside
`[25, 35]`. -/
lemma round2_bounds {x : ℚ} (h1 : 25 ≤ x) (h2 : x < 35) :
    25 ≤ round2 x ∧ round2 x ≤ 35 := by
  have hf1 : (2500 : ℤ) ≤ ⌊x * 100⌋ := by
    rw [Int.le_floor]
    push_cast
    linarith
  have hf2 : ⌊x * 100⌋ < 3500 := by
    rw [Int.floor_lt]
    push_cast
    linarith
  obtain ⟨hb1, hb2⟩ := roundHalfEven_bounds (x * 100)
  have hq1 : (2500 : ℚ) ≤ (roundHalfEven (x * 100) : ℚ) := by
    exact_mod_cast by omega
  have hq2 : (roundHalfEven (x * 100) : ℚ) ≤ 3500 := by
    exact_mod_cast by omega
  unfold round2
  constructor
  · rw [le_div_iff₀ (by norm_num : (0:ℚ) < 100)]
    linarith
  · rw [div_le_iff₀ (by norm_num : (0:ℚ) < 100)]
    linarith

/-- C9: every synthetic record has an integer sales value in
`[1000, 20000)` (hence positive), a profit equal to sales times a
factor in `[0.25, 0.35)`, and therefore a margin between 25 and 35
percent. -/
theorem synthetic_row_ranges (rng : SampleRng) (hv : rng.Valid) :
    ∀ r ∈ create_sample_data rng,
      (∃ n : ℤ, r.sales = (n : ℚ) ∧ 1000 ≤ n ∧ n < 20000) ∧
      0 < r.sales ∧
      (∃ f : ℚ, r.profit = r.sales * f ∧ 1/4 ≤ f ∧ f < 7/20) ∧
      (25 ≤ r.margin ∧ r.margin ≤ 35) := by
  intro r hr
  have hr' : ∃ raw ∈ sampleRows rng 0 sampleTriples, addMargin raw = r :=
    List.mem_map.mp hr
  obtain ⟨raw, hraw, rfl⟩ := hr'
  obtain ⟨j, hsales, hprofit, -⟩ := sampleRows_fields rng sampleTriples 0 raw hraw
  obtain ⟨hs, hf, -, -⟩ := hv
  obtain ⟨hs1, hs2⟩ := hs j
  obtain ⟨hf1, hf2⟩ := hf j
  have hsalesr : (addMargin raw).sales = ((rng.salesDraw j : ℤ) : ℚ) := hsales
  have hprofitr : (addMargin raw).profit
      = ((rng.salesDraw j : ℤ) : ℚ) * rng.profitFactor j := hprofit
  have hpos : (0 : ℚ) < ((rng.salesDraw j : ℤ) : ℚ) := by
    exact_mod_cast lt_of_lt_of_le (by norm_num) hs1
  refine ⟨⟨rng.salesDraw j, hsalesr, hs1, hs2⟩, ?_, ?_, ?_⟩
  · rw [hsalesr]
    exact hpos
  · exact ⟨rng.profitFactor j, by rw [hprofitr, hsalesr], hf1, hf2⟩
  · have hm : (addMargin raw).margin
        = round2 (raw.profit / raw.sales * 100) := rfl
    have hdiv : raw.profit / raw.sales = rng.profitFactor j := by
      rw [hprofit, hsales]
      exact mul_div_cancel_left₀ _ (ne_of_gt hpos)
    rw [hm, hdiv]
    exact round2_bounds (by linarith) (by linarith)

/-- C9 witness: `synthetic_row_ranges` at the concrete oracle `rng0`,
applied to the first generated record. -/
theorem synthetic_row_ranges_witness :
    (∃ n : ℤ,
      ((create_sample_data rng0).head (create_sample_data_ne_nil rng0)).sales
        = (n : ℚ) ∧ 1000 ≤ n ∧ n < 20000) ∧
    0 < ((create_sample_data rng0).head (create_sample_data_ne_nil rng0)).sales ∧
    (∃ f : ℚ,
      ((create_sample_data rng0).head (create_sample_data_ne_nil rng0)).profit
        = ((create_sample_data rng0).head (create_sample_data_ne_nil rng0)).sales * f ∧
      1/4 ≤ f ∧ f < 7/20) ∧
    (25 ≤ ((create_sample_data rng0).head (create_sample_data_ne_nil rng0)).margin ∧
      ((create_sample_data rng0).head (create_sample_data_ne_nil rng0)).margin ≤ 35) :=
  synthetic_row_ranges rng0
    ⟨fun _ => ⟨by norm_num [rng0], by norm_num [rng0]⟩,
     fun _ => ⟨by norm_num [rng0], by norm_num [rng0]⟩,
     fun _ => ⟨by norm_num [rng0], by norm_num [rng0]⟩,
     fun _ => by norm_num [rng0]⟩
    ((create_sample_data rng0).head (create_sample_data_ne_nil rng0))
    (List.head_mem (create_sample_data_ne_nil rng0))

/-- C4 witness: `sample_fallback_window` at the concrete oracle
`rng0`. -/
theorem sample_fallback_window_witness :
    create_sample_data rng0 ≠ [] ∧
    (∀ r ∈ create_sample_data rng0,
      (20240101 ≤ r.date ∧ r.date ≤ 20240131) ∧
      r.category ∈ (["Elettronica", "Abbigliamento", "Casa"] : List String) ∧
      r.product ∈ products r.category ∧
      r.region ∈ (["Nord", "Centro", "Sud"] : List String)) ∧
    (∀ i : Nat, i < 31 →
      ∃ r ∈ create_sample_data rng0, r.date = 20240101 + (i : Int)) :=
  sample_fallback_window rng0 (create_sample_data rng0) rfl

/-- The filter step only ever selects rows of its input, whatever the
date widget yielded. -/
lemma applyFilters_subset (df : List Record) (dr : List Int)
    (cats regs : List String) :
    ∀ r ∈ applyFilters df dr cats regs, r ∈ df := by
  intro r hr
  cases dr with
  | nil => exact hr
  | cons a t =>
      cases t with
      | nil => exact hr
      | cons b u =>
          cases u with
          | nil => exact List.mem_of_mem_filter hr
          | cons c v => exact hr

/-- C6: the loaded dataset is never mutated.  Running the filter step
leaves the `df` component of the session state unchanged, `filtered_df`
is a value derived from `df`, and the downstream KPI and export steps
return the state with `df` still unchanged. -/
theorem loaded_data_never_mutated (df : List Record) (dr : List Int)
    (cats regs : List String) (today : String) :
    (applyFilterStep ⟨df, df⟩ dr cats regs).df = df ∧
    (applyFilterStep ⟨df, df⟩ dr cats regs).filtered
      = applyFilters df dr cats regs ∧
    (kpiStep (applyFilterStep ⟨df, df⟩ dr cats regs)).1.df = df ∧
    (exportStep (applyFilterStep ⟨df, df⟩ dr cats regs) today).1.df = df :=
  ⟨rfl, rfl, rfl, rfl⟩

/-- C7: the export emits the CSV serialization of exactly the filtered
view — header plus one row per filtered record, no index column — and
the file name contains the current date. -/
theorem export_is_filtered_csv (df : List Record) (dr : List Int)
    (cats regs : List String) (today : String) :
    (exportStep (applyFilterStep ⟨df, df⟩ dr cats regs) today).2
      = (String.intercalate "\n"
          (csvHeader :: (applyFilters df dr cats regs).map recordCsvRow),
         "dashboard_data_" ++ today ++ ".csv") ∧
    ∃ pre post,
      (exportStep (applyFilterStep ⟨df, df⟩ dr cats regs) today).2.2
        = pre ++ today ++ post :=
  ⟨rfl, "dashboard_data_", ".csv", rfl⟩

/-- C10: deselecting every category (with a two-date range) empties the
filtered view, makes `total_sales` zero, and the unguarded margin-delta
division by the filtered total yields a non-finite float rather than an
exception. -/
theorem empty_selection_margin_not_finite (df : List Record) (d0 d1 : Int)
    (regs : List String) :
    applyFilters df [d0, d1] [] regs = [] ∧
    totalSales (applyFilters df [d0, d1] [] regs) = 0 ∧
    marginDelta (applyFilters df [d0, d1] [] regs) = .nonFinite := by
  have h : applyFilters df [d0, d1] [] regs = [] := by
    simp only [applyFilters]
    rw [List.filter_eq_nil_iff]
    intro r hr
    simp [recordMask]
  refine ⟨h, ?_, ?_⟩
  · rw [h]
    rfl
  · rw [h]
    simp [marginDelta, totalSales, totalProfit, fdiv, fscale]
